import Mathlib

set_option maxHeartbeats 1000000

/-!
Shallow embedding of the `arabic-chatbot` repository (files `src/config.py`,
`src/ingest.py`, `src/query.py`, `src/app.py`).

Python strings are modelled as `List Char` (`PyStr`).  External effects are
modelled as explicit parameters:
* the FAISS similarity search of `QueryEngine.get_relevant_context` is the
  parameter `retrieved` (the list of `doc.page_content` strings it returns);
* the text-generation pipeline call is a parameter
  `gen : PyStr → Except Unit PyStr`; `Except.error ()` models the call raising
  an exception (the only fallible step inside the `try:` block of
  `answer_question`), `Except.ok t` models it returning
  `responses[0]['generated_text'] = t`;
* the filesystem check `os.path.exists` of `ingest.py` is a `Bool` parameter,
  and the PDF pages are a `List PyStr` parameter;
* `query_engine.answer_question` as seen from `app.py` is a parameter
  `engine : PyStr → Except Unit PyStr` (`Except.error ()` models it raising).

Structures carry an extra `Bool` field recording whether the external
generation model (resp. the query engine) was invoked, so that claims of the
form "... without invoking the generation model" are statable.
-/

abbrev PyStr := List Char

/-- Code points Python treats as whitespace: `str.split()` / `str.strip()`
whitespace and `\s` of the `re` module (Unicode mode) agree on this set.
The run U+2000–U+200A is listed code point by code point. -/
def pyIsSpaceN (n : Nat) : Bool :=
  decide (n = 32) || decide (n = 9) || decide (n = 10) || decide (n = 13) ||
  decide (n = 11) || decide (n = 12) || decide (n = 28) || decide (n = 29) ||
  decide (n = 30) || decide (n = 31) || decide (n = 133) || decide (n = 160) ||
  decide (n = 5760) || decide (8192 ≤ n ∧ n ≤ 8202) || decide (n = 8232) ||
  decide (n = 8233) || decide (n = 8239) || decide (n = 8287) || decide (n = 12288)

/-- Whether a character is Python whitespace. -/
def pyIsSpace (c : Char) : Bool := pyIsSpaceN c.toNat

/-- Python `str.lower`, restricted to its ASCII case mapping (the strings the
repository manipulates are Arabic, digits and ASCII punctuation, on which
`str.lower` is exactly this map). -/
def pyToLower (c : Char) : Char :=
  if 65 ≤ c.toNat ∧ c.toNat ≤ 90 then Char.ofNat (c.toNat + 32) else c

/-- Python `s.lower()` mapped over a string. -/
def pyLower (s : PyStr) : PyStr := s.map pyToLower

/-- Python `s.strip()`: remove whitespace from both ends. -/
def pyStrip (s : PyStr) : PyStr :=
  ((s.dropWhile pyIsSpace).reverse.dropWhile pyIsSpace).reverse

/-- Helper for `pySplit`: `acc` is the current (reversed) pending token. -/
def pySplitAux : PyStr → PyStr → List PyStr
  | [], acc => if acc = [] then [] else [acc.reverse]
  | c :: cs, acc =>
    if pyIsSpace c then
      if acc = [] then pySplitAux cs [] else acc.reverse :: pySplitAux cs []
    else pySplitAux cs (c :: acc)

/-- Python `s.split()` with no argument: split on runs of whitespace,
discarding empty tokens. -/
def pySplit (s : PyStr) : List PyStr := pySplitAux s []

/-- Python `s.split(sep)` for a one-character separator: keeps empty pieces,
and yields `[""]` on the empty string.  The inner `[]` case is unreachable
(`splitChar` never returns the empty list). -/
def splitChar (sep : Char) : PyStr → List PyStr
  | [] => [[]]
  | c :: cs =>
    if c = sep then [] :: splitChar sep cs
    else
      match splitChar sep cs with
      | [] => [[c]]
      | t :: ts => (c :: t) :: ts

/-- Python `needle in haystack` substring membership on strings. -/
def inStr (needle : PyStr) : PyStr → Bool
  | [] => List.isPrefixOf needle []
  | c :: cs => List.isPrefixOf needle (c :: cs) || inStr needle cs

/-- Python `max(l, key=f)`: the first element attaining the maximal key.
Python `max` raises on an empty sequence; the `[]` case below is unreachable
in this development because `splitChar` never returns `[]`. -/
def pyMaxBy (f : PyStr → Nat) : List PyStr → PyStr
  | [] => []
  | x :: xs => xs.foldl (fun acc y => if f acc < f y then y else acc) x

/-! Constants from `src/config.py`. -/

/-- Fallback answer `DEFAULT_NO_ANSWER_MSG` from `config.py`. -/
def DEFAULT_NO_ANSWER_MSG : PyStr :=
  "عذرًا، لا أملك معلومات كافية للإجابة على هذا السؤال.".data

/-- Retrieval constant `TOP_K_RESULTS` from `config.py`. -/
def TOP_K_RESULTS : Nat := 3

/-- Chunking constant `CHUNK_SIZE` from `config.py`. -/
def CHUNK_SIZE : Nat := 1000

/-- Chunking constant `CHUNK_OVERLAP` from `config.py`. -/
def CHUNK_OVERLAP : Nat := 200

/-! Definitions from `src/ingest.py`. -/

/-- The complement of `arabic_pattern` in `clean_text`: the characters the
negated character class does NOT match, i.e. the characters `clean_text`
keeps.  The ranges are, in the order written in the source: U+0600–U+06FF,
U+0750–U+077F, U+08A0–U+08FF, U+FB50–U+FDFF, U+FE70–U+FEFF, U+0020–U+002F,
U+0030–U+0039, U+0660–U+0669 and U+06F0–U+06F9. -/
def allowedChar (c : Char) : Bool :=
  let n := c.toNat
  (decide (0x0600 ≤ n) && decide (n ≤ 0x06FF)) ||
  (decide (0x0750 ≤ n) && decide (n ≤ 0x077F)) ||
  (decide (0x08A0 ≤ n) && decide (n ≤ 0x08FF)) ||
  (decide (0xFB50 ≤ n) && decide (n ≤ 0xFDFF)) ||
  (decide (0xFE70 ≤ n) && decide (n ≤ 0xFEFF)) ||
  (decide (0x0020 ≤ n) && decide (n ≤ 0x002F)) ||
  (decide (0x0030 ≤ n) && decide (n ≤ 0x0039)) ||
  (decide (0x0660 ≤ n) && decide (n ≤ 0x0669)) ||
  (decide (0x06F0 ≤ n) && decide (n ≤ 0x06F9))

/-- The substitution `arabic_pattern.sub(' ', text)` in `clean_text`: every
disallowed character is replaced by a space. -/
def arabicPatternSub (s : PyStr) : PyStr :=
  s.map fun c => if allowedChar c then c else ' '

/-- Helper for `collapseWs`: the flag records whether the previous character
belonged to a whitespace run already replaced by a single `' '`. -/
def collapseWsAux : Bool → PyStr → PyStr
  | _, [] => []
  | prevSp, c :: cs =>
    if pyIsSpace c then
      if prevSp then collapseWsAux true cs else ' ' :: collapseWsAux true cs
    else c :: collapseWsAux false cs

/-- The substitution `re.sub(r'\s+', ' ', text)` in `clean_text`: each maximal
run of whitespace becomes a single space. -/
def collapseWs (s : PyStr) : PyStr := collapseWsAux false s

/-- Helper for `collapseNl`, analogous to `collapseWsAux`. -/
def collapseNlAux : Bool → PyStr → PyStr
  | _, [] => []
  | prevNl, c :: cs =>
    if c = '\n' then
      if prevNl then collapseNlAux true cs else '\n' :: collapseNlAux true cs
    else c :: collapseNlAux false cs

/-- The substitution `re.sub(r'\n+', '\n', text)` in `clean_text`: each maximal
run of newlines becomes a single newline. -/
def collapseNl (s : PyStr) : PyStr := collapseNlAux false s

/-- The function `clean_text` of `ingest.py`.  The initial
`text.encode('utf-8', errors='ignore').decode('utf-8')` is the identity on the
strings representable here (Lean `Char` excludes lone surrogates), so it is
not modelled as a separate step. -/
def clean_text (s : PyStr) : PyStr :=
  pyStrip (collapseNl (collapseWs (arabicPatternSub s)))

/-- The exception `extract_text_from_pdf` raises. -/
inductive IngestError where
  | fileNotFound
deriving DecidableEq

/-- The function `extract_text_from_pdf` of `ingest.py`: `os.path.exists` is
the parameter `pdfExists`, and `pages` holds the per-page `extract_text()`
results (their `encode/decode` round-trip is the identity here); the page
texts are concatenated in order. -/
def extract_text_from_pdf (pdfExists : Bool) (pages : List PyStr) :
    Except IngestError PyStr :=
  if pdfExists = false then Except.error IngestError.fileNotFound
  else Except.ok (pages.foldl (· ++ ·) [])

/-- Which stages of `ingest.main` ran: text extraction from the PDF pages,
chunking, and vector-index construction. -/
structure IngestTrace where
  extracted : Bool
  chunked : Bool
  indexed : Bool
deriving DecidableEq

/-- The function `main` of `ingest.py`.  `chunker` abstracts the
`RecursiveCharacterTextSplitter.split_text` library call of `chunk_text`, and
index construction (`create_vector_db`) is recorded in the trace; the result
is the chunk list handed to `create_vector_db`. -/
def ingest_main (pdfExists : Bool) (pages : List PyStr)
    (chunker : PyStr → List PyStr) :
    Except IngestError (List PyStr) × IngestTrace :=
  match extract_text_from_pdf pdfExists pages with
  | Except.error e => (Except.error e, ⟨false, false, false⟩)
  | Except.ok text =>
    let clean_content := clean_text text
    let chunks := chunker clean_content
    (Except.ok chunks, ⟨true, true, true⟩)

/-! Definitions from `src/query.py`. -/

/-- The separator `"\n\n"` used to join retrieved chunks. -/
def nl2 : PyStr := ['\n', '\n']

/-- The method `QueryEngine.get_relevant_context`: join the retrieved chunk
texts with `"\n\n"` and return `None` when the joined text is whitespace-only.
The similarity search itself is the parameter `retrieved`. -/
def get_relevant_context (retrieved : List PyStr) : Option PyStr :=
  let context := List.intercalate nl2 retrieved
  if pyStrip context = [] then none else some context

/-- Template text of `format_prompt` before `{context}`. -/
def tmplA : PyStr :=
  "\n        استنادًا إلى المعلومات التالية:\n        \n        ".data

/-- Template text of `format_prompt` between `{context}` and `{query}`. -/
def tmplB : PyStr :=
  "\n        \n        أجب على السؤال التالي باللغة العربية:\n        ".data

/-- Template text of `format_prompt` after `{query}`. -/
def tmplC : PyStr :=
  ("\n        \n        إذا كانت المعلومات المقدمة لا تحتوي على إجابة للسؤال، فقل: \"عذرًا، لا أملك معلومات كافية للإجابة على هذا السؤال.\"\n        \n        الإجابة:\n        ").data

/-- The method `QueryEngine.format_prompt`: `template.format(context=..., query=...)`. -/
def format_prompt (query context : PyStr) : PyStr :=
  tmplA ++ context ++ tmplB ++ query ++ tmplC

/-- The keyword list of `answer_question`:
`[word for word in query.lower().split() if len(word) > 3]`. -/
def query_keywords (query : PyStr) : List PyStr :=
  (pySplit (pyLower query)).filter fun w => 3 < w.length

/-- The keyword-overlap count `sum(kw in s.lower() for kw in kws)` used by the
two `max(..., key=...)` fallbacks of `answer_question`. -/
def keywordCount (kws : List PyStr) (s : PyStr) : Nat :=
  kws.countP fun kw => inStr kw (pyLower s)

/-- Result of `answer_question`, together with a flag recording whether the
generation model was invoked. -/
structure Answer where
  text : PyStr
  modelInvoked : Bool
deriving DecidableEq

/-- The method `QueryEngine.answer_question`.  `retrieved` is the list of
chunk texts the similarity search returns, `gen` the generation pipeline
(`Except.error ()` = the call raises, caught by the `except` clause). -/
def answer_question (gen : PyStr → Except Unit PyStr) (retrieved : List PyStr)
    (query : PyStr) : Answer :=
  match get_relevant_context retrieved with
  | none => ⟨DEFAULT_NO_ANSWER_MSG, false⟩
  | some context =>
    let prompt := format_prompt query context
    if (query_keywords query).any (fun kw => inStr kw (pyLower context)) = false then
      ⟨DEFAULT_NO_ANSWER_MSG, false⟩
    else
      match gen prompt with
      | Except.ok generated_text =>
        let answer := pyStrip (generated_text.drop prompt.length)
        if answer.length < 10 then
          ⟨pyMaxBy (keywordCount (query_keywords query)) (splitChar '\n' context), true⟩
        else
          ⟨answer, true⟩
      | Except.error _ =>
        ⟨pyMaxBy (keywordCount (query_keywords query)) (splitChar '.' context) ++ ['.'], true⟩

/-! Definitions from `src/app.py`. -/

/-- Response of the `POST /ask` handler, together with a flag recording
whether the query engine was invoked. -/
structure AskResponse where
  answer : PyStr
  engineInvoked : Bool
deriving DecidableEq

/-- The handler `ask_question` of `app.py`: empty/whitespace-only questions
short-circuit to the default message; otherwise `query_engine.answer_question`
(the parameter `engine`; `Except.error ()` = it raises) is called inside
`try/except`, any exception yielding the default message. -/
def ask_question (engine : PyStr → Except Unit PyStr) (question : PyStr) :
    AskResponse :=
  if pyStrip question = [] then ⟨DEFAULT_NO_ANSWER_MSG, false⟩
  else
    match engine question with
    | Except.ok a => ⟨a, true⟩
    | Except.error _ => ⟨DEFAULT_NO_ANSWER_MSG, true⟩

/-! Proof-side predicates used by the `clean_text` lemmas. -/

/-- Whether the first character of a string is Python whitespace. -/
def headIsSpace : PyStr → Bool
  | [] => false
  | c :: _ => pyIsSpace c

/-- Whether the last character of a string is Python whitespace. -/
def getLastSp : PyStr → Bool
  | [] => false
  | c :: cs => if cs = [] then pyIsSpace c else getLastSp cs

/-- No two adjacent characters are both Python whitespace. -/
def noDoubleSpace : PyStr → Bool
  | [] => true
  | c :: cs => (!(pyIsSpace c && headIsSpace cs)) && noDoubleSpace cs

/-! Concrete model instances used by the witnesses. -/

/-- Generation model that returns the empty string. -/
def genEmpty : PyStr → Except Unit PyStr := fun _ => Except.ok []

/-- Generation model that echoes the prompt (so the continuation after the
prompt is empty). -/
def genEcho : PyStr → Except Unit PyStr := fun p => Except.ok p

/-- Generation model whose call raises an exception. -/
def genRaise : PyStr → Except Unit PyStr := fun _ => Except.error ()

/-- Query engine (as seen from `app.py`) that raises an exception. -/
def engineRaise : PyStr → Except Unit PyStr := fun _ => Except.error ()

/-- Query engine that returns the empty answer. -/
def engineEmpty : PyStr → Except Unit PyStr := fun _ => Except.ok []

/-! Helper lemmas. -/

theorem toNat_ofNat_of_lt {m : Nat} (h : m < 55296) : (Char.ofNat m).toNat = m := by
  have hv : m.isValidChar := Or.inl h
  simp [Char.ofNat, hv, Char.ofNatAux, Char.toNat, UInt32.toNat, BitVec.toNat_ofNatLt]

theorem pyIsSpaceN_eq_false {n : Nat} (h1 : 65 ≤ n) (h2 : n ≤ 122) :
    pyIsSpaceN n = false := by
  simp only [pyIsSpaceN, Bool.or_eq_false_iff, decide_eq_false_iff_not]
  omega

theorem pyIsSpace_pyToLower (c : Char) : pyIsSpace (pyToLower c) = pyIsSpace c := by
  unfold pyToLower
  split
  · rename_i h
    have h97 : (Char.ofNat (c.toNat + 32)).toNat = c.toNat + 32 :=
      toNat_ofNat_of_lt (by omega)
    show pyIsSpaceN _ = pyIsSpaceN _
    rw [h97, pyIsSpaceN_eq_false (by omega) (by omega),
      pyIsSpaceN_eq_false (by omega) (by omega)]
  · rfl

theorem pySplitAux_pyLower (s : PyStr) : ∀ acc : PyStr,
    pySplitAux (pyLower s) (pyLower acc) = (pySplitAux s acc).map pyLower := by
  induction s with
  | nil =>
    intro acc
    by_cases h : acc = []
    · subst h; simp [pyLower, pySplitAux]
    · have h' : pyLower acc ≠ [] := by
        simpa [pyLower, List.map_eq_nil_iff] using h
      simp [pyLower, pySplitAux, h, h', List.map_reverse]
  | cons c cs ih =>
    intro acc
    simp only [pyLower, List.map_cons, pySplitAux, pyIsSpace_pyToLower]
    by_cases h : pyIsSpace c
    · rw [if_pos h, if_pos h]
      by_cases ha : acc = []
      · subst ha
        simp only [List.map_nil, if_pos rfl]
        exact ih []
      · have ha' : List.map pyToLower acc ≠ [] := by
          simpa [List.map_eq_nil_iff] using ha
        rw [if_neg ha, if_neg ha']
        have := ih []
        simp only [pyLower, List.map_nil] at this
        simp only [List.map_cons, pyLower, List.map_reverse, this]
    · rw [if_neg h, if_neg h]
      have := ih (c :: acc)
      simp only [pyLower, List.map_cons] at this ⊢
      rw [this]

theorem pySplit_pyLower (s : PyStr) :
    pySplit (pyLower s) = (pySplit s).map pyLower := by
  have := pySplitAux_pyLower s []
  simpa [pySplit, pyLower] using this

theorem query_keywords_eq_nil_of_short (query : PyStr)
    (h : ∀ t ∈ pySplit query, t.length ≤ 3) : query_keywords query = [] := by
  unfold query_keywords
  rw [pySplit_pyLower, List.filter_eq_nil_iff]
  intro w hw
  rcases List.mem_map.mp hw with ⟨t, ht, rfl⟩
  have := h t ht
  simp only [pyLower, List.length_map, decide_eq_true_eq]
  omega

theorem splitChar_ne_nil (sep : Char) (l : PyStr) : splitChar sep l ≠ [] := by
  cases l with
  | nil => simp [splitChar]
  | cons c cs =>
    unfold splitChar
    split
    · simp
    · split <;> simp

theorem foldl_max_mem (f : PyStr → Nat) (xs : List PyStr) : ∀ acc : PyStr,
    xs.foldl (fun acc y => if f acc < f y then y else acc) acc ∈ acc :: xs := by
  induction xs with
  | nil => intro acc; simp
  | cons z zs ih =>
    intro acc
    simp only [List.foldl_cons]
    by_cases h : f acc < f z
    · rw [if_pos h]
      have := ih z
      simp only [List.mem_cons] at this ⊢
      tauto
    · rw [if_neg h]
      have := ih acc
      simp only [List.mem_cons] at this ⊢
      tauto

theorem foldl_max_le (f : PyStr → Nat) (xs : List PyStr) : ∀ acc : PyStr,
    ∀ y ∈ acc :: xs, f y ≤ f (xs.foldl (fun acc y => if f acc < f y then y else acc) acc) := by
  induction xs with
  | nil =>
    intro acc y hy
    simp only [List.mem_singleton] at hy
    subst hy
    simp
  | cons z zs ih =>
    intro acc y hy
    simp only [List.foldl_cons]
    set acc' := if f acc < f z then z else acc with hacc'
    have h1 : f acc ≤ f acc' := by
      rw [hacc']; split <;> omega
    have h2 : f z ≤ f acc' := by
      rw [hacc']; split <;> omega
    have hhead : f acc' ≤ f (zs.foldl (fun acc y => if f acc < f y then y else acc) acc') :=
      ih acc' acc' (List.mem_cons_self _ _)
    simp only [List.mem_cons] at hy
    rcases hy with rfl | rfl | hy
    · omega
    · omega
    · exact ih acc' y (List.mem_cons_of_mem _ hy)

theorem pyMaxBy_mem (f : PyStr → Nat) (l : List PyStr) (h : l ≠ []) :
    pyMaxBy f l ∈ l := by
  cases l with
  | nil => exact absurd rfl h
  | cons x xs => exact foldl_max_mem f xs x

theorem pyMaxBy_le (f : PyStr → Nat) (l : List PyStr) :
    ∀ y ∈ l, f y ≤ f (pyMaxBy f l) := by
  cases l with
  | nil => intro y hy; simp at hy
  | cons x xs => exact foldl_max_le f xs x

/-! Claim theorems. -/

/-- C1: for every query and every non-empty retrieved context, if none of the
query's whitespace-separated tokens of length greater than 3 (lowercased)
occurs as a substring of the lowercased concatenated retrieved context, then
`answer_question` returns `DEFAULT_NO_ANSWER_MSG` without invoking the
generation model. -/
theorem answer_question_default_of_no_keyword_overlap
    (gen : PyStr → Except Unit PyStr) (retrieved : List PyStr) (query : PyStr)
    (hne : List.intercalate nl2 retrieved ≠ [])
    (hkw : ∀ kw ∈ query_keywords query,
      inStr kw (pyLower (List.intercalate nl2 retrieved)) = false) :
    answer_question gen retrieved query = ⟨DEFAULT_NO_ANSWER_MSG, false⟩ := by
  unfold answer_question get_relevant_context
  by_cases h : pyStrip (List.intercalate nl2 retrieved) = []
  · rw [if_pos h]
  · rw [if_neg h]
    have hany : (query_keywords query).any
        (fun kw => inStr kw (pyLower (List.intercalate nl2 retrieved))) = false := by
      rw [List.any_eq_false]
      intro kw hm
      simp [hkw kw hm]
    simp only []
    rw [if_pos hany]

theorem answer_question_default_of_no_keyword_overlap_witness :
    (List.intercalate nl2 ["xyz".data] ≠ [] ∧
      ∀ kw ∈ query_keywords "abcd".data,
        inStr kw (pyLower (List.intercalate nl2 ["xyz".data])) = false) ∧
    answer_question genEmpty ["xyz".data] "abcd".data =
      ⟨DEFAULT_NO_ANSWER_MSG, false⟩ :=
  ⟨⟨by decide, by decide⟩,
    answer_question_default_of_no_keyword_overlap genEmpty ["xyz".data]
      "abcd".data (by decide) (by decide)⟩

/-- C5: for every query, if the concatenated text of the retrieved chunks is
empty, `answer_question` returns `DEFAULT_NO_ANSWER_MSG` (and the generation
model is not invoked). -/
theorem answer_question_default_of_empty_context
    (gen : PyStr → Except Unit PyStr) (retrieved : List PyStr) (query : PyStr)
    (h : List.intercalate nl2 retrieved = []) :
    answer_question gen retrieved query = ⟨DEFAULT_NO_ANSWER_MSG, false⟩ := by
  unfold answer_question get_relevant_context
  rw [h]
  rfl

theorem answer_question_default_of_empty_context_witness :
    List.intercalate nl2 ([] : List PyStr) = [] ∧
    answer_question genEmpty [] "anything".data = ⟨DEFAULT_NO_ANSWER_MSG, false⟩ :=
  ⟨by decide,
    answer_question_default_of_empty_context genEmpty [] "anything".data (by decide)⟩

/-- C10: for every query in which every whitespace-separated token has length
at most 3 (so the keyword list is empty), `answer_question` returns
`DEFAULT_NO_ANSWER_MSG` whenever the retrieved context is non-empty, and the
generation model is never invoked. -/
theorem answer_question_default_of_all_tokens_short
    (gen : PyStr → Except Unit PyStr) (retrieved : List PyStr) (query : PyStr)
    (hne : List.intercalate nl2 retrieved ≠ [])
    (hshort : ∀ t ∈ pySplit query, t.length ≤ 3) :
    answer_question gen retrieved query = ⟨DEFAULT_NO_ANSWER_MSG, false⟩ := by
  unfold answer_question get_relevant_context
  by_cases h : pyStrip (List.intercalate nl2 retrieved) = []
  · rw [if_pos h]
  · rw [if_neg h]
    have hany : (query_keywords query).any
        (fun kw => inStr kw (pyLower (List.intercalate nl2 retrieved))) = false := by
      rw [query_keywords_eq_nil_of_short query hshort]
      rfl
    simp only []
    rw [if_pos hany]

theorem answer_question_default_of_all_tokens_short_witness :
    (List.intercalate nl2 ["some stored context".data] ≠ [] ∧
      ∀ t ∈ pySplit "ما هي".data, t.length ≤ 3) ∧
    answer_question genEmpty ["some stored context".data] "ما هي".data =
      ⟨DEFAULT_NO_ANSWER_MSG, false⟩ :=
  ⟨⟨by decide, by decide⟩,
    answer_question_default_of_all_tokens_short genEmpty
      ["some stored context".data] "ما هي".data (by decide) (by decide)⟩

/-- C4: for every question that is empty or consists only of whitespace, the
`POST /ask` handler returns the default message without invoking the query
engine; in particular the empty question does. -/
theorem ask_question_default_of_blank
    (engine : PyStr → Except Unit PyStr) (question : PyStr)
    (h : ∀ c ∈ question, pyIsSpace c = true) :
    ask_question engine question = ⟨DEFAULT_NO_ANSWER_MSG, false⟩ := by
  have h1 : question.dropWhile pyIsSpace = [] := List.dropWhile_eq_nil_iff.mpr h
  have hs : pyStrip question = [] := by
    unfold pyStrip
    rw [h1]
    rfl
  unfold ask_question
  rw [if_pos hs]

theorem ask_question_default_of_blank_witness :
    ((∀ c ∈ ([] : PyStr), pyIsSpace c = true) ∧
      ask_question engineEmpty [] = ⟨DEFAULT_NO_ANSWER_MSG, false⟩) ∧
    ((∀ c ∈ "  ".data, pyIsSpace c = true) ∧
      ask_question engineEmpty "  ".data = ⟨DEFAULT_NO_ANSWER_MSG, false⟩) :=
  ⟨⟨by decide, ask_question_default_of_blank engineEmpty [] (by decide)⟩,
    ⟨by decide, ask_question_default_of_blank engineEmpty "  ".data (by decide)⟩⟩

/-- C8: for every question, if the query engine call raises, the `POST /ask`
handler catches the exception and still answers with the default message; no
exception propagates (the handler is a total function in this model). -/
theorem ask_question_default_of_engine_error
    (engine : PyStr → Except Unit PyStr) (question : PyStr)
    (h : engine question = Except.error ()) :
    (ask_question engine question).answer = DEFAULT_NO_ANSWER_MSG := by
  unfold ask_question
  by_cases hs : pyStrip question = []
  · rw [if_pos hs]
  · rw [if_neg hs, h]

theorem ask_question_default_of_engine_error_witness :
    engineRaise "سؤال".data = Except.error () ∧
    (ask_question engineRaise "سؤال".data).answer = DEFAULT_NO_ANSWER_MSG :=
  ⟨rfl, ask_question_default_of_engine_error engineRaise "سؤال".data rfl⟩

/-- C7: if the source PDF does not exist, `extract_text_from_pdf` raises
`FileNotFoundError`, and the ingestion `main` therefore fails before any
extraction, chunking, or index construction is performed (all trace flags are
`false`). -/
theorem ingest_raises_when_pdf_missing (pages : List PyStr)
    (chunker : PyStr → List PyStr) :
    extract_text_from_pdf false pages = Except.error IngestError.fileNotFound ∧
    ingest_main false pages chunker =
      (Except.error IngestError.fileNotFound, ⟨false, false, false⟩) := by
  constructor <;> rfl

/-- C2: for every query with at least one keyword matching the context, if
the generated continuation (the generated text after the prompt, stripped) is
shorter than 10 characters, `answer_question` returns a newline-delimited
paragraph of the retrieved context whose count of matching query keywords is
maximal. -/
theorem answer_question_short_generation_returns_best_paragraph
    (gen : PyStr → Except Unit PyStr) (retrieved : List PyStr) (query : PyStr)
    (g : PyStr)
    (hctx : pyStrip (List.intercalate nl2 retrieved) ≠ [])
    (hkw : (query_keywords query).any
      (fun kw => inStr kw (pyLower (List.intercalate nl2 retrieved))) = true)
    (hgen : gen (format_prompt query (List.intercalate nl2 retrieved)) = Except.ok g)
    (hshort : (pyStrip (g.drop
      (format_prompt query (List.intercalate nl2 retrieved)).length)).length < 10) :
    ∃ p ∈ splitChar '\n' (List.intercalate nl2 retrieved),
      (∀ q ∈ splitChar '\n' (List.intercalate nl2 retrieved),
        keywordCount (query_keywords query) q ≤ keywordCount (query_keywords query) p) ∧
      (answer_question gen retrieved query).text = p := by
  refine ⟨pyMaxBy (keywordCount (query_keywords query))
      (splitChar '\n' (List.intercalate nl2 retrieved)),
    pyMaxBy_mem _ _ (splitChar_ne_nil _ _), pyMaxBy_le _ _, ?_⟩
  unfold answer_question get_relevant_context
  rw [if_neg hctx]
  simp only [hkw]
  rw [if_neg (by simp)]
  rw [hgen]
  simp only []
  rw [if_pos hshort]

theorem answer_question_short_generation_returns_best_paragraph_witness :
    (pyStrip (List.intercalate nl2 ["abcd".data]) ≠ [] ∧
      (query_keywords "abcd".data).any
        (fun kw => inStr kw (pyLower (List.intercalate nl2 ["abcd".data]))) = true ∧
      genEcho (format_prompt "abcd".data (List.intercalate nl2 ["abcd".data])) =
        Except.ok (format_prompt "abcd".data (List.intercalate nl2 ["abcd".data])) ∧
      (pyStrip ((format_prompt "abcd".data (List.intercalate nl2 ["abcd".data])).drop
        (format_prompt "abcd".data (List.intercalate nl2 ["abcd".data])).length)).length < 10) ∧
    ∃ p ∈ splitChar '\n' (List.intercalate nl2 ["abcd".data]),
      (∀ q ∈ splitChar '\n' (List.intercalate nl2 ["abcd".data]),
        keywordCount (query_keywords "abcd".data) q ≤
          keywordCount (query_keywords "abcd".data) p) ∧
      (answer_question genEcho ["abcd".data] "abcd".data).text = p :=
  ⟨⟨by decide, by decide, rfl, by rw [List.drop_length]; decide⟩,
    answer_question_short_generation_returns_best_paragraph genEcho
      ["abcd".data] "abcd".data _ (by decide) (by decide) rfl
      (by rw [List.drop_length]; decide)⟩

/-- C3 (counterexample to the claim as stated): when the generation model
raises, the value `answer_question` returns is NOT the period-delimited
sentence of the retrieved context with the highest keyword-overlap count: a
trailing `'.'` is appended, so the result is not even an element of the
period-split of the context. -/
theorem answer_question_error_result_not_a_sentence :
    (answer_question genRaise ["abcd".data] "abcd".data).text ≠
      pyMaxBy (keywordCount (query_keywords "abcd".data))
        (splitChar '.' (List.intercalate nl2 ["abcd".data])) ∧
    (answer_question genRaise ["abcd".data] "abcd".data).text ∉
      splitChar '.' (List.intercalate nl2 ["abcd".data]) := by
  decide

/-- C3 (amended): if the generation model call raises, `answer_question`
catches the exception and returns a period-delimited sentence of the
retrieved context with maximal keyword-overlap count, WITH a trailing `'.'`
appended to it. -/
theorem answer_question_error_returns_best_sentence_dot
    (gen : PyStr → Except Unit PyStr) (retrieved : List PyStr) (query : PyStr)
    (hctx : pyStrip (List.intercalate nl2 retrieved) ≠ [])
    (hkw : (query_keywords query).any
      (fun kw => inStr kw (pyLower (List.intercalate nl2 retrieved))) = true)
    (hgen : gen (format_prompt query (List.intercalate nl2 retrieved)) =
      Except.error ()) :
    ∃ s ∈ splitChar '.' (List.intercalate nl2 retrieved),
      (∀ t ∈ splitChar '.' (List.intercalate nl2 retrieved),
        keywordCount (query_keywords query) t ≤ keywordCount (query_keywords query) s) ∧
      (answer_question gen retrieved query).text = s ++ ['.'] := by
  refine ⟨pyMaxBy (keywordCount (query_keywords query))
      (splitChar '.' (List.intercalate nl2 retrieved)),
    pyMaxBy_mem _ _ (splitChar_ne_nil _ _), pyMaxBy_le _ _, ?_⟩
  unfold answer_question get_relevant_context
  rw [if_neg hctx]
  simp only [hkw]
  rw [if_neg (by simp)]
  rw [hgen]

theorem answer_question_error_returns_best_sentence_dot_witness :
    (pyStrip (List.intercalate nl2 ["abcd".data]) ≠ [] ∧
      (query_keywords "abcd".data).any
        (fun kw => inStr kw (pyLower (List.intercalate nl2 ["abcd".data]))) = true ∧
      genRaise (format_prompt "abcd".data (List.intercalate nl2 ["abcd".data])) =
        Except.error ()) ∧
    ∃ s ∈ splitChar '.' (List.intercalate nl2 ["abcd".data]),
      (∀ t ∈ splitChar '.' (List.intercalate nl2 ["abcd".data]),
        keywordCount (query_keywords "abcd".data) t ≤
          keywordCount (query_keywords "abcd".data) s) ∧
      (answer_question genRaise ["abcd".data] "abcd".data).text = s ++ ['.'] :=
  ⟨⟨by decide, by decide, rfl⟩,
    answer_question_error_returns_best_sentence_dot genRaise
      ["abcd".data] "abcd".data (by decide) (by decide) rfl⟩

/-! Lemmas for the idempotence of `clean_text` (C9). -/

theorem headIsSpace_append (a b : PyStr) (h : a ≠ []) :
    headIsSpace (a ++ b) = headIsSpace a := by
  cases a with
  | nil => exact absurd rfl h
  | cons c cs => rfl

theorem getLastSp_cons_ne (c : Char) (cs : PyStr) (h : cs ≠ []) :
    getLastSp (c :: cs) = getLastSp cs := by
  show (if cs = [] then pyIsSpace c else getLastSp cs) = getLastSp cs
  rw [if_neg h]

theorem noDoubleSpace_cons (c : Char) (cs : PyStr) :
    noDoubleSpace (c :: cs) = ((!(pyIsSpace c && headIsSpace cs)) && noDoubleSpace cs) :=
  rfl

theorem getLastSp_append_singleton (a : PyStr) (c : Char) :
    getLastSp (a ++ [c]) = pyIsSpace c := by
  induction a with
  | nil => rfl
  | cons d ds ih =>
    have hne : ds ++ [c] ≠ [] := by simp
    rw [show ((d :: ds : PyStr) ++ [c]) = d :: (ds ++ [c]) from rfl,
      getLastSp_cons_ne d (ds ++ [c]) hne, ih]

theorem getLastSp_reverse (l : PyStr) : getLastSp l.reverse = headIsSpace l := by
  cases l with
  | nil => rfl
  | cons c cs =>
    rw [List.reverse_cons, getLastSp_append_singleton]
    rfl

theorem headIsSpace_reverse (l : PyStr) : headIsSpace l.reverse = getLastSp l := by
  have := getLastSp_reverse l.reverse
  rw [List.reverse_reverse] at this
  rw [← this]

theorem noDoubleSpace_append_singleton (l : PyStr) (c : Char) :
    noDoubleSpace (l ++ [c]) = (noDoubleSpace l && !(getLastSp l && pyIsSpace c)) := by
  induction l with
  | nil => cases hc : pyIsSpace c <;> simp [noDoubleSpace, headIsSpace, getLastSp, hc]
  | cons d ds ih =>
    cases ds with
    | nil =>
      cases hd : pyIsSpace d <;> cases hc : pyIsSpace c <;>
        simp [noDoubleSpace, headIsSpace, getLastSp, hd, hc]
    | cons e es =>
      have hne : (e :: es : PyStr) ≠ [] := by simp
      rw [show ((d :: e :: es : PyStr) ++ [c]) = d :: ((e :: es) ++ [c]) from rfl,
        noDoubleSpace_cons d ((e :: es) ++ [c]), ih,
        noDoubleSpace_cons d (e :: es),
        headIsSpace_append (e :: es) [c] hne,
        getLastSp_cons_ne d (e :: es) hne, Bool.and_assoc]

theorem noDoubleSpace_reverse (l : PyStr) :
    noDoubleSpace l.reverse = noDoubleSpace l := by
  induction l with
  | nil => rfl
  | cons c cs ih =>
    rw [List.reverse_cons, noDoubleSpace_append_singleton, ih, getLastSp_reverse]
    simp only [noDoubleSpace]
    cases pyIsSpace c <;> cases headIsSpace cs <;> cases noDoubleSpace cs <;> rfl

theorem noDoubleSpace_tail (c : Char) (cs : PyStr)
    (h : noDoubleSpace (c :: cs) = true) : noDoubleSpace cs = true := by
  simp only [noDoubleSpace, Bool.and_eq_true] at h
  exact h.2

theorem noDoubleSpace_dropWhile (l : PyStr) (h : noDoubleSpace l = true) :
    noDoubleSpace (l.dropWhile pyIsSpace) = true := by
  induction l with
  | nil => exact h
  | cons c cs ih =>
    rw [List.dropWhile_cons]
    split
    · exact ih (noDoubleSpace_tail c cs h)
    · exact h

theorem headIsSpace_dropWhile (l : PyStr) :
    headIsSpace (l.dropWhile pyIsSpace) = false := by
  induction l with
  | nil => rfl
  | cons c cs ih =>
    rw [List.dropWhile_cons]
    split
    · exact ih
    · rename_i h
      simpa [headIsSpace] using h

theorem getLastSp_dropWhile (l : PyStr) (h : l.dropWhile pyIsSpace ≠ []) :
    getLastSp (l.dropWhile pyIsSpace) = getLastSp l := by
  induction l with
  | nil => exact absurd rfl h
  | cons c cs ih =>
    rw [List.dropWhile_cons] at h ⊢
    split
    · rename_i hc
      rw [if_pos hc] at h
      have hcs : cs ≠ [] := by
        intro he
        subst he
        exact h rfl
      rw [ih h, getLastSp, if_neg hcs]
    · rfl

theorem mem_dropWhile {x : Char} {l : PyStr} (h : x ∈ l.dropWhile pyIsSpace) :
    x ∈ l :=
  List.Sublist.mem h (List.dropWhile_sublist _)

theorem mem_pyStrip {x : Char} {l : PyStr} (h : x ∈ pyStrip l) : x ∈ l := by
  unfold pyStrip at h
  rw [List.mem_reverse] at h
  exact mem_dropWhile (List.mem_reverse.mp (mem_dropWhile h))

theorem noDoubleSpace_pyStrip (l : PyStr) (h : noDoubleSpace l = true) :
    noDoubleSpace (pyStrip l) = true := by
  unfold pyStrip
  rw [noDoubleSpace_reverse]
  exact noDoubleSpace_dropWhile _ (by rw [noDoubleSpace_reverse]; exact noDoubleSpace_dropWhile l h)

theorem headIsSpace_pyStrip (l : PyStr) : headIsSpace (pyStrip l) = false := by
  unfold pyStrip
  by_cases hw : (l.dropWhile pyIsSpace).reverse.dropWhile pyIsSpace = []
  · rw [hw]; rfl
  · rw [headIsSpace_reverse, getLastSp_dropWhile _ hw, getLastSp_reverse]
    exact headIsSpace_dropWhile l

theorem getLastSp_pyStrip (l : PyStr) : getLastSp (pyStrip l) = false := by
  unfold pyStrip
  rw [← headIsSpace_reverse, List.reverse_reverse]
  exact headIsSpace_dropWhile _

theorem dropWhile_of_head_not (l : PyStr) (h : headIsSpace l = false) :
    l.dropWhile pyIsSpace = l := by
  cases l with
  | nil => rfl
  | cons c cs =>
    rw [List.dropWhile_cons, if_neg]
    simpa [headIsSpace] using h

theorem pyStrip_fix (l : PyStr) (h1 : headIsSpace l = false)
    (h2 : getLastSp l = false) : pyStrip l = l := by
  unfold pyStrip
  rw [dropWhile_of_head_not l h1, dropWhile_of_head_not _ (by rw [headIsSpace_reverse]; exact h2),
    List.reverse_reverse]

theorem collapseWsAux_space_mem (l : PyStr) : ∀ (b : Bool),
    ∀ c ∈ collapseWsAux b l, pyIsSpace c = true → c = ' ' := by
  induction l with
  | nil => intro b c hc; exact absurd hc (List.not_mem_nil c)
  | cons d ds ih =>
    intro b c hc hsp
    unfold collapseWsAux at hc
    by_cases hd : pyIsSpace d
    · rw [if_pos hd] at hc
      cases b with
      | true => exact ih true c hc hsp
      | false =>
        have hc' : c ∈ ' ' :: collapseWsAux true ds := hc
        simp only [List.mem_cons] at hc'
        rcases hc' with rfl | hc'
        · rfl
        · exact ih true c hc' hsp
    · rw [if_neg hd] at hc
      simp only [List.mem_cons] at hc
      rcases hc with rfl | hc
      · rw [hsp] at hd; exact absurd rfl hd
      · exact ih false c hc hsp

theorem collapseWsAux_mem (l : PyStr) : ∀ (b : Bool),
    ∀ c ∈ collapseWsAux b l, c = ' ' ∨ c ∈ l := by
  induction l with
  | nil => intro b c hc; exact absurd hc (List.not_mem_nil c)
  | cons d ds ih =>
    intro b c hc
    unfold collapseWsAux at hc
    by_cases hd : pyIsSpace d
    · rw [if_pos hd] at hc
      cases b with
      | true =>
        rcases ih true c hc with h | h
        · exact Or.inl h
        · exact Or.inr (List.mem_cons_of_mem d h)
      | false =>
        have hc' : c ∈ ' ' :: collapseWsAux true ds := hc
        simp only [List.mem_cons] at hc'
        rcases hc' with rfl | hc'
        · exact Or.inl rfl
        · rcases ih true c hc' with h | h
          · exact Or.inl h
          · exact Or.inr (List.mem_cons_of_mem d h)
    · rw [if_neg hd] at hc
      simp only [List.mem_cons] at hc
      rcases hc with rfl | hc
      · exact Or.inr (List.mem_cons_self _ _)
      · rcases ih false c hc with h | h
        · exact Or.inl h
        · exact Or.inr (List.mem_cons_of_mem d h)

theorem headIsSpace_collapseWsAux_true (l : PyStr) :
    headIsSpace (collapseWsAux true l) = false := by
  induction l with
  | nil => rfl
  | cons d ds ih =>
    unfold collapseWsAux
    by_cases hd : pyIsSpace d
    · rw [if_pos hd]
      exact ih
    · rw [if_neg hd]
      simpa [headIsSpace] using hd

theorem noDoubleSpace_collapseWsAux (l : PyStr) : ∀ (b : Bool),
    noDoubleSpace (collapseWsAux b l) = true := by
  induction l with
  | nil => intro b; rfl
  | cons d ds ih =>
    intro b
    unfold collapseWsAux
    by_cases hd : pyIsSpace d
    · rw [if_pos hd]
      cases b with
      | true => exact ih true
      | false =>
        show noDoubleSpace (' ' :: collapseWsAux true ds) = true
        rw [noDoubleSpace_cons, headIsSpace_collapseWsAux_true, ih true]
        rfl
    · rw [if_neg hd, noDoubleSpace_cons, ih false]
      rw [show pyIsSpace d = false by simpa using hd]
      rfl

theorem collapseWsAux_fix (l : PyStr) (hnd : noDoubleSpace l = true)
    (hsp : ∀ c ∈ l, pyIsSpace c = true → c = ' ') :
    collapseWsAux false l = l ∧
      (headIsSpace l = false → collapseWsAux true l = l) := by
  induction l with
  | nil => exact ⟨rfl, fun _ => rfl⟩
  | cons d ds ih =>
    have hnd2 : noDoubleSpace ds = true := noDoubleSpace_tail d ds hnd
    have hsp2 : ∀ c ∈ ds, pyIsSpace c = true → c = ' ' :=
      fun c hc => hsp c (List.mem_cons_of_mem d hc)
    have ih' := ih hnd2 hsp2
    by_cases hd : pyIsSpace d
    · have hdsp : d = ' ' := hsp d (List.mem_cons_self _ _) hd
      have hhead : headIsSpace ds = false := by
        rw [noDoubleSpace_cons, hd, Bool.true_and, Bool.and_eq_true,
          Bool.not_eq_true'] at hnd
        exact hnd.1
      constructor
      · show (if pyIsSpace d then if false then collapseWsAux true ds
            else ' ' :: collapseWsAux true ds else d :: collapseWsAux false ds) = d :: ds
        rw [if_pos hd, if_neg (by simp), ih'.2 hhead, hdsp]
      · intro hh
        rw [show headIsSpace (d :: ds) = pyIsSpace d from rfl, hd] at hh
        exact absurd hh (by simp)
    · constructor
      · show (if pyIsSpace d then if false then collapseWsAux true ds
            else ' ' :: collapseWsAux true ds else d :: collapseWsAux false ds) = d :: ds
        rw [if_neg hd, ih'.1]
      · intro _
        show (if pyIsSpace d then if true then collapseWsAux true ds
            else ' ' :: collapseWsAux true ds else d :: collapseWsAux false ds) = d :: ds
        rw [if_neg hd, ih'.1]

theorem collapseNlAux_fix (b : Bool) (l : PyStr) (h : ∀ c ∈ l, c ≠ '\n') :
    collapseNlAux b l = l := by
  induction l generalizing b with
  | nil => rfl
  | cons d ds ih =>
    have hd : d ≠ '\n' := h d (List.mem_cons_self _ _)
    show (if d = '\n' then if b then collapseNlAux true ds
        else '\n' :: collapseNlAux true ds else d :: collapseNlAux false ds) = d :: ds
    rw [if_neg hd, ih false (fun c hc => h c (List.mem_cons_of_mem d hc))]

theorem allowedChar_arabicPatternSub (s : PyStr) :
    ∀ c ∈ arabicPatternSub s, allowedChar c = true := by
  intro c hc
  rcases List.mem_map.mp hc with ⟨d, _, rfl⟩
  by_cases hd : allowedChar d
  · rwa [if_pos hd]
  · rw [if_neg hd]
    decide

theorem arabicPatternSub_fix (s : PyStr) (h : ∀ c ∈ s, allowedChar c = true) :
    arabicPatternSub s = s := by
  induction s with
  | nil => rfl
  | cons d ds ih =>
    show (if allowedChar d then d else ' ') :: ds.map _ = d :: ds
    rw [if_pos (h d (List.mem_cons_self _ _)),
      show ds.map (fun c => if allowedChar c then c else ' ') = arabicPatternSub ds from rfl,
      ih (fun c hc => h c (List.mem_cons_of_mem d hc))]

theorem clean_text_fixed (y : PyStr)
    (h1 : ∀ c ∈ y, allowedChar c = true)
    (h2 : ∀ c ∈ y, pyIsSpace c = true → c = ' ')
    (h3 : noDoubleSpace y = true)
    (h4 : headIsSpace y = false)
    (h5 : getLastSp y = false) :
    clean_text y = y := by
  have hsub : arabicPatternSub y = y := arabicPatternSub_fix y h1
  have hws : collapseWs y = y := (collapseWsAux_fix y h3 h2).1
  have hnn : ∀ c ∈ y, c ≠ '\n' := by
    intro c hc h
    subst h
    have := h2 _ hc (by decide)
    exact absurd this (by decide)
  have hnl : collapseNl y = y := collapseNlAux_fix false y hnn
  rw [clean_text, hsub, hws, hnl]
  exact pyStrip_fix y h4 h5

/-- C9: `clean_text` is idempotent. -/
theorem clean_text_idempotent (s : PyStr) :
    clean_text (clean_text s) = clean_text s := by
  have hzsp : ∀ c ∈ collapseWs (arabicPatternSub s), pyIsSpace c = true → c = ' ' :=
    collapseWsAux_space_mem (arabicPatternSub s) false
  have hznn : ∀ c ∈ collapseWs (arabicPatternSub s), c ≠ '\n' := by
    intro c hc h
    subst h
    have := hzsp _ hc (by decide)
    exact absurd this (by decide)
  have hnl : collapseNl (collapseWs (arabicPatternSub s)) =
      collapseWs (arabicPatternSub s) :=
    collapseNlAux_fix false _ hznn
  have hy : clean_text s = pyStrip (collapseWs (arabicPatternSub s)) := by
    rw [clean_text, hnl]
  rw [hy]
  apply clean_text_fixed
  · intro c hc
    rcases collapseWsAux_mem (arabicPatternSub s) false c (mem_pyStrip hc) with h | h
    · subst h; decide
    · exact allowedChar_arabicPatternSub s c h
  · intro c hc
    exact hzsp c (mem_pyStrip hc)
  · exact noDoubleSpace_pyStrip _ (noDoubleSpace_collapseWsAux (arabicPatternSub s) false)
  · exact headIsSpace_pyStrip _
  · exact getLastSp_pyStrip _
